import Mathlib

/-!
Verification of the PlantUML-statechart-to-Python pipeline.

Part 1 models the runtime behaviour of the code emitted by
`src/generator.py`: the base classes `State`, `SimpleState`,
`CompositeState`, `CompositeStateWithHistory`, the per-state
`entry` / `exit` / `dispatch` / `transition` methods, and the
generated `StateMachine` orchestrator.  Generated machines have the
two-level shape the generator supports (top-level states, composites
whose substates are simple); the generator itself notes that deeper
nesting is not working.  Crashes of the emitted Python (AttributeError
on the `None` sentinel, TypeError from calling a generated
zero-parameter `entry(self)` with a positional argument) are modelled
as `none`; `Option.bind` sequences statements so a crash aborts the
rest of the method, exactly as an uncaught exception would.  Traces are
lists of invoked action-stub names.
-/

namespace PumlHSM

/-- A transition record as the generator sees it: source and target state
names, event label, optional guard text, and whether the generated call
passes `use_hist=True` (history-directed target). -/
structure Trans where
  src : String
  tgt : String
  event : String
  guard : Option String
  useHist : Bool
deriving Repr, DecidableEq

/-- A generated simple substate of a composite: optional bound entry/exit
action names and the dispatch branches emitted for it (one per transition
whose source is this state, in declaration order). -/
structure SubState where
  name : String
  entryA : Option String
  exitA : Option String
  branches : List Trans
deriving Repr, DecidableEq

/-- A generated composite state: optional bound actions, whether any
incoming transition is history-directed (selecting the
`CompositeStateWithHistory` base), its substates in declaration order and
the name of the substate targeted by the scoped initial transition. -/
structure Comp where
  entryA : Option String
  exitA : Option String
  hasHist : Bool
  subs : List SubState
  initName : String
deriving Repr, DecidableEq

/-- Mutable fields of a composite instance: `_state` (current substate
index) and `_history`, both initialised to the `None` sentinel by the
generated constructor. -/
structure CompCfg where
  st : Option Nat
  hist : Option Nat
deriving Repr, DecidableEq

/-- Resolution of `self.{name}` among the substate fields of a composite. -/
def findSub (c : Comp) (nm : String) : Option Nat :=
  c.subs.findIdx? (fun s => s.name == nm)

/-- Argument-free `entry()` call on a simple state, as the generated
composite entry and machine constructor perform it: the generated override
runs the bound action; the inherited base `entry` is a no-op. -/
def subEntryNoArg (s : SubState) : List String := s.entryA.toList

/-- The `entry(use_hist)` call the emitted `transition` methods perform.
The generated override for a simple state with a bound entry action has
signature `entry(self)` with no parameter, so passing the positional
`use_hist` argument raises TypeError (modelled `none`); a simple state
without a bound action inherits `entry(self, use_hist=False)`. -/
def subEntryArg (s : SubState) : Option (List String) :=
  match s.entryA with
  | some _ => none
  | none => some []

/-- The `exit()` call on a simple state: generated override runs the bound
action, otherwise the inherited no-op. -/
def subExitRun (s : SubState) : List String := s.exitA.toList

/-- The `self.state.exit()` step shared by `CompositeState.exit` and the
emitted `transition` methods: exits the currently active substate;
`none` models the AttributeError when `_state` is the `None` sentinel. -/
def compSubExit (c : Comp) (cfg : CompCfg) : Option (List String) :=
  (cfg.st.bind fun i => c.subs.get? i).map subExitRun

/-- `exit()` on a composite.  With a bound exit action the generator emits
an override running `self.state.exit()` and then the action; without one
the inherited `CompositeState.exit` runs `self.state.exit()` only. -/
def compExit (c : Comp) (cfg : CompCfg) : Option (List String) :=
  match c.exitA with
  | some a => (compSubExit c cfg).map (fun tr => tr ++ [a])
  | none => compSubExit c cfg

/-- The generated composite `entry(use_hist)`: runs the bound entry action,
then (for a history composite) either restores `_history` or falls through
to the declared initial substate, then calls the chosen substate's
argument-free `entry()`.  `_history` is not modified.  `none` models the
AttributeError of `None.entry()` when the chosen slot is the sentinel. -/
def compEntry (c : Comp) (cfg : CompCfg) (useHist : Bool) :
    Option (CompCfg × List String) :=
  (if c.hasHist && useHist then cfg.hist else findSub c c.initName).bind fun i =>
    (c.subs.get? i).map fun s =>
      ({ st := some i, hist := cfg.hist }, c.entryA.toList ++ subEntryNoArg s)

/-- `CompositeState.transition(new_state, use_hist)`: exit the active
substate, repoint `_state`, enter the new substate passing `use_hist`
positionally. -/
def compTransition (c : Comp) (cfg : CompCfg) (tgt : String) (_useHist : Bool) :
    Option (CompCfg × List String) :=
  (compSubExit c cfg).bind fun xtr =>
    (findSub c tgt).bind fun j =>
      (c.subs.get? j).bind fun s2 =>
        (subEntryArg s2).map fun etr =>
          ({ st := some j, hist := cfg.hist }, xtr ++ etr)

/-- `CompositeStateWithHistory.transition(new_state, use_hist)`: exit the
active substate, repoint `_state`, assign `self._history = self._state`
(after the repointing, so `_history` receives the new substate), enter the
new substate. -/
def compHistTransition (c : Comp) (cfg : CompCfg) (tgt : String) (_useHist : Bool) :
    Option (CompCfg × List String) :=
  (compSubExit c cfg).bind fun xtr =>
    (findSub c tgt).bind fun j =>
      (c.subs.get? j).bind fun s2 =>
        (subEntryArg s2).map fun etr =>
          ({ st := some j, hist := some j }, xtr ++ etr)

/-- Shape of a generated top-level state class: simple (optional bound
actions) or composite. -/
inductive TopBody where
  | simple (entryA exitA : Option String)
  | comp (c : Comp)
deriving Repr, DecidableEq

/-- A generated top-level state together with the dispatch branches the
generator emitted for it. -/
structure TopState where
  name : String
  body : TopBody
  branches : List Trans
deriving Repr, DecidableEq

/-- The generated StateMachine: one field per top-level state, plus the
top-level transition scope used to wire the initial state. -/
structure Machine where
  tops : List TopState
  trans : List Trans
deriving Repr, DecidableEq

/-- Mutable fields of a StateMachine instance: the active-state pointer and
the per-top-state composite configurations (parallel to `tops`). -/
structure MCfg where
  cur : Nat
  cfgs : List CompCfg
deriving Repr, DecidableEq

/-- Configurations produced by the generated constructors: every composite
initialises `_state` and `_history` to the `None` sentinel. -/
def initCfgs (m : Machine) : List CompCfg :=
  m.tops.map (fun _ => { st := none, hist := none })

/-- Resolution of `self.{name}` among the StateMachine's state fields. -/
def findTop (m : Machine) (nm : String) : Option Nat :=
  m.tops.findIdx? (fun t => t.name == nm)

/-- Argument-free `entry()` on a top-level state, as the generated
constructor calls it. -/
def topEntryNoArg : TopBody → CompCfg → Option (CompCfg × List String)
  | .simple e _, cfg => some (cfg, e.toList)
  | .comp c, cfg => compEntry c cfg false

/-- `entry(use_hist)` on a top-level state as called by
`StateMachine.transition` (positional argument): TypeError for a simple
state with a bound entry action, since its generated override takes no
parameter. -/
def topEntryArg : TopBody → CompCfg → Bool → Option (CompCfg × List String)
  | .simple e _, cfg, _ =>
    match e with
    | some _ => none
    | none => some (cfg, [])
  | .comp c, cfg, u => compEntry c cfg u

/-- `exit()` on a top-level state. -/
def topExit : TopBody → CompCfg → Option (List String)
  | .simple _ x, _ => some x.toList
  | .comp c, cfg => compExit c cfg

/-- Target of the first `[*] -->` transition in a scope:
`emit_state_machine` scans the transition list in order and stops at the
first transition whose source is the initial pseudostate. -/
def firstInitTarget (ts : List Trans) : Option String :=
  (ts.find? (fun t => t.src == "[*]")).map (fun t => t.tgt)

/-- The generated `StateMachine.__init__`: constructs every state field
(running no actions), assigns `self.state` to the first `[*]` target and
calls its argument-free `entry()` once before returning.  `none` models
the AttributeError when no `[*]` transition or no matching field exists. -/
def stateMachineInit (m : Machine) : Option (MCfg × List String) :=
  (firstInitTarget m.trans).bind fun nm =>
    (findTop m nm).bind fun k =>
      (m.tops.get? k).bind fun t =>
        (topEntryNoArg t.body { st := none, hist := none }).map fun p =>
          ({ cur := k, cfgs := (initCfgs m).set k p.1 }, p.2)

/-- `StateMachine.transition(new_state, use_hist)`: exit the active state,
repoint `self.state`, enter the new state passing `use_hist`
positionally. -/
def stateMachineTransition (m : Machine) (cfg : MCfg) (tgt : String) (useHist : Bool) :
    Option (MCfg × List String) :=
  (m.tops.get? cfg.cur).bind fun t =>
    (cfg.cfgs.get? cfg.cur).bind fun ccfg =>
      (topExit t.body ccfg).bind fun xtr =>
        (findTop m tgt).bind fun k =>
          (m.tops.get? k).bind fun t2 =>
            (cfg.cfgs.get? k).bind fun ccfg2 =>
              (topEntryArg t2.body ccfg2 useHist).map fun p =>
                ({ cur := k, cfgs := cfg.cfgs.set k p.1 }, xtr ++ p.2)

/-- Condition of one emitted dispatch branch:
`event == "<label>" and (self.context.<guard>)`, with guard text evaluated
against the context valuation `g`. -/
def branchCond (event : String) (g : String → Bool) (b : Trans) : Bool :=
  (event == b.event) && (match b.guard with | some s => g s | none => true)

/-- Sequential execution of the emitted branches of a top-level state's
dispatch.  The generator emits each branch as an independent `if`
statement, so every branch whose condition holds invokes
`self.context.transition(...)` in order; the third component records the
branches that fired. -/
def fireSeq (m : Machine) (event : String) (g : String → Bool) :
    MCfg → List Trans → Option (MCfg × List String × List Trans)
  | cfg, [] => some (cfg, [], [])
  | cfg, b :: rest =>
    if branchCond event g b then
      (stateMachineTransition m cfg b.tgt b.useHist).bind fun p =>
        (fireSeq m event g p.1 rest).map fun q => (q.1, p.2 ++ q.2.1, b :: q.2.2)
    else fireSeq m event g cfg rest

/-- `self.context.transition(...)` invoked from a substate: the context is
the owning composite, whose `transition` method comes from
`CompositeStateWithHistory` when the composite has history. -/
def compDoTransition (c : Comp) (cfg : CompCfg) (tgt : String) (useHist : Bool) :
    Option (CompCfg × List String) :=
  if c.hasHist then compHistTransition c cfg tgt useHist
  else compTransition c cfg tgt useHist

/-- Sequential execution of the emitted branches of a substate's dispatch
(independent `if` statements over the composite context). -/
def compFireSeq (c : Comp) (event : String) (g : String → Bool) :
    CompCfg → List Trans → Option (CompCfg × List String × List Trans)
  | cfg, [] => some (cfg, [], [])
  | cfg, b :: rest =>
    if branchCond event g b then
      (compDoTransition c cfg b.tgt b.useHist).bind fun p =>
        (compFireSeq c event g p.1 rest).map fun q => (q.1, p.2 ++ q.2.1, b :: q.2.2)
    else compFireSeq c event g cfg rest

/-- `self.state.dispatch(event)` on the active substate of a composite: a
substate with no emitted branches has no dispatch method and inherits the
no-op; otherwise its branches run over the composite context. -/
def subDispatch (c : Comp) (cfg : CompCfg) (event : String) (g : String → Bool) :
    Option (CompCfg × List String × List Trans) :=
  (cfg.st.bind fun i => c.subs.get? i).bind fun s =>
    compFireSeq c event g cfg s.branches

/-- Delegation step of a composite's dispatch: the composite object read at
its own top-level slot dispatches the event to its active substate. -/
def delegateTo (origCur : Nat) (c : Comp) (cfg : MCfg) (event : String)
    (g : String → Bool) : Option (MCfg × List String × List Trans) :=
  (cfg.cfgs.get? origCur).bind fun ccfg =>
    (subDispatch c ccfg event g).map fun r =>
      ({ cur := cfg.cur, cfgs := cfg.cfgs.set origCur r.1 }, r.2.1, r.2.2)

/-- `StateMachine.dispatch(event)`: the active top-level state's dispatch.
For a simple state the emitted branches (if any) run as independent `if`
statements.  For a composite, the generator appends a single `else:`
delegating to the substate, and that `else` binds to the LAST emitted
`if`; with no branches at all, the inherited `CompositeState.dispatch`
delegates unconditionally.  The result records the machine configuration,
the action trace, the branches of the dispatching state that fired, and
whether delegation to the substate happened. -/
def dispatchEvent (m : Machine) (cfg : MCfg) (event : String) (g : String → Bool) :
    Option (MCfg × List String × List Trans × Bool) :=
  (m.tops.get? cfg.cur).bind fun t =>
    match t.body with
    | .simple _ _ =>
      (fireSeq m event g cfg t.branches).map fun r => (r.1, r.2.1, r.2.2, false)
    | .comp c =>
      match t.branches.getLast? with
      | none =>
        (delegateTo cfg.cur c cfg event g).map fun r => (r.1, r.2.1, ([] : List Trans), true)
      | some lastB =>
        (fireSeq m event g cfg t.branches).bind fun r =>
          if branchCond event g lastB then some (r.1, r.2.1, r.2.2, false)
          else
            (delegateTo cfg.cur c r.1 event g).map fun r2 =>
              (r2.1, r.2.1 ++ r2.2.1, r.2.2, true)

/-- Reference description of the entry actions an initial `entry()` chain
runs: the state's own bound entry action followed, for a composite, by the
declared initial substate's bound entry action. -/
def entryChainActs : TopBody → Option (List String)
  | .simple e _ => some e.toList
  | .comp c =>
    (findSub c c.initName).bind fun i =>
      (c.subs.get? i).map fun s => c.entryA.toList ++ s.entryA.toList

/-- A composite with history and two action-free substates, as generated
for a composite entered via `[H]` transitions. -/
def histCompEx : Comp :=
  { entryA := none, exitA := none, hasHist := true
  , subs :=
      [ { name := "s0", entryA := none, exitA := none, branches := [] }
      , { name := "s1", entryA := none, exitA := none, branches := [] } ]
  , initName := "s0" }

/-- A composite with a bound exit action whose single substate also has a
bound exit action. -/
def exitCompEx : Comp :=
  { entryA := none, exitA := some "piepen", hasHist := false
  , subs :=
      [ { name := "leaf", entryA := none, exitA := some "leafExit", branches := [] } ]
  , initName := "leaf" }

/-- A machine whose state `a` has two emitted dispatch branches for the
same event `e`, targeting `b` and `c` respectively. -/
def twoBranchMachine : Machine :=
  { tops :=
      [ { name := "a", body := .simple none none
        , branches :=
            [ { src := "a", tgt := "b", event := "e", guard := none, useHist := false }
            , { src := "a", tgt := "c", event := "e", guard := none, useHist := false } ] }
      , { name := "b", body := .simple none none, branches := [] }
      , { name := "c", body := .simple none none, branches := [] } ]
  , trans :=
      [ { src := "[*]", tgt := "a", event := "+", guard := none, useHist := false } ] }

/-- Start configuration of `twoBranchMachine` with `a` active. -/
def twoBranchCfg : MCfg :=
  { cur := 0
  , cfgs := [ { st := none, hist := none }, { st := none, hist := none }
            , { st := none, hist := none } ] }

/-- A machine with a single simple top-level state carrying an entry
action, entered by the top-level initial transition. -/
def initMachineEx : Machine :=
  { tops := [ { name := "a", body := .simple (some "a_on") none, branches := [] } ]
  , trans :=
      [ { src := "[*]", tgt := "a", event := "+", guard := none, useHist := false } ] }

/-- C1 counterexample: on a `CompositeStateWithHistory` whose active
substate is `s0` (index 0), calling `transition` to `s1` leaves `_history`
equal to the NEW substate `s1` (index 1), not the substate that was active
before the call, refuting the claim at this concrete input. -/
theorem C1_history_records_outgoing_counterexample :
    ¬ (∀ out, compHistTransition histCompEx { st := some 0, hist := none } "s1" false =
          some out → out.1.hist = some 0) := by
  intro h
  have h1 := h ({ st := some 1, hist := some 1 }, []) (by decide)
  exact absurd h1 (by decide)

/-- C1 amended: after any successful `transition(new_state, use_hist)` on a
`CompositeStateWithHistory`, `_history` equals the NEWLY entered substate
(the assignment `self._history = self._state` runs after `_state` has been
repointed), and it coincides with the new `_state`; the capture happens
inside `transition` only, never in `exit` or in callers. -/
theorem C1_history_records_incoming (c : Comp) (cfg : CompCfg) (tgt : String)
    (u : Bool) (out : CompCfg × List String)
    (h : compHistTransition c cfg tgt u = some out) :
    ∃ j, findSub c tgt = some j ∧ out.1.st = some j ∧ out.1.hist = some j := by
  simp only [compHistTransition, Option.bind_eq_some, Option.map_eq_some'] at h
  obtain ⟨xtr, _, j, hf, s2, _, etr, _, hout⟩ := h
  exact ⟨j, hf, by rw [← hout], by rw [← hout]⟩

/-- C1 amended witness at the concrete history composite. -/
theorem C1_history_records_incoming_witness :
    ∃ j, findSub histCompEx "s1" = some j ∧
      (({ st := some 1, hist := some 1 } : CompCfg), ([] : List String)).1.st = some j ∧
      (({ st := some 1, hist := some 1 } : CompCfg), ([] : List String)).1.hist = some j :=
  C1_history_records_incoming histCompEx { st := some 0, hist := none } "s1" false
    ({ st := some 1, hist := some 1 }, []) (by decide)

/-- C2: the generated `entry(use_hist=True)` on a composite with history
whose `_history` slot is still the unset `None` sentinel assigns the
sentinel to `_state` and then calls `entry()` on it, crashing
(AttributeError, modelled `none`) instead of falling back to the declared
initial substate. -/
theorem C2_entry_empty_history_crashes (c : Comp) (cfg : CompCfg)
    (hh : c.hasHist = true) (hn : cfg.hist = none) :
    compEntry c cfg true = none := by
  simp [compEntry, hh, hn]

/-- C2 witness: the crash evaluated at the concrete history composite in
its freshly constructed configuration. -/
theorem C2_entry_empty_history_crashes_witness :
    compEntry histCompEx { st := none, hist := none } true = none :=
  C2_entry_empty_history_crashes histCompEx { st := none, hist := none } rfl rfl

/-- Firing record of a branch sequence: because the generator emits each
branch as an independent `if` statement, the branches that fire are exactly
those whose (configuration-independent) condition holds, in order. -/
theorem fireSeq_fired_eq_filter (m : Machine) (event : String) (g : String → Bool) :
    ∀ (bs : List Trans) (cfg : MCfg) (out : MCfg × List String × List Trans),
      fireSeq m event g cfg bs = some out →
      out.2.2 = bs.filter (branchCond event g) := by
  intro bs
  induction bs with
  | nil =>
    intro cfg out h
    simp only [fireSeq] at h
    injection h with h2
    subst h2
    rfl
  | cons b rest ih =>
    intro cfg out h
    unfold fireSeq at h
    by_cases hc : branchCond event g b
    · rw [if_pos hc] at h
      simp only [Option.bind_eq_some, Option.map_eq_some'] at h
      obtain ⟨p, _, q, hq, hout⟩ := h
      have hrec := ih p.1 q hq
      rw [← hout]
      simp [List.filter_cons, hc, hrec]
    · rw [if_neg hc] at h
      have hrec := ih cfg out h
      simp [List.filter_cons, hc, hrec]

/-- C3 counterexample: in `twoBranchMachine`, state `a` has two emitted
branches for event `e`; dispatching `e` fires BOTH branches (the machine
ends in `c`, having passed through `b`), refuting "at most one transition
branch fires per dispatch call" at this concrete input. -/
theorem C3_first_match_wins_counterexample :
    ¬ (∀ out, dispatchEvent twoBranchMachine twoBranchCfg "e" (fun _ => false) =
          some out → out.2.2.1.length ≤ 1) := by
  intro h
  have h1 := h
    ({ cur := 2
     , cfgs := [ { st := none, hist := none }, { st := none, hist := none }
               , { st := none, hist := none } ] }, [],
     [ { src := "a", tgt := "b", event := "e", guard := none, useHist := false }
     , { src := "a", tgt := "c", event := "e", guard := none, useHist := false } ],
     false) (by decide)
  exact absurd h1 (by decide)

/-- C3 amended: branches are emitted one per transition whose source is
this state, in declaration order, but as independent `if` statements: on a
successful dispatch EVERY branch whose event-and-guard condition holds
fires, in order (the fired list is the condition-filter of the branch
list), and delegation to the composite's current substate happens exactly
when the state is composite and either no branch was emitted (inherited
unconditional delegation) or the LAST emitted branch's condition — the
only one the single `else:` binds to — is false. -/
theorem C3_all_matching_branches_fire (m : Machine) (cfg : MCfg) (event : String)
    (g : String → Bool) (out : MCfg × List String × List Trans × Bool)
    (t : TopState) (ht : m.tops.get? cfg.cur = some t)
    (h : dispatchEvent m cfg event g = some out) :
    out.2.2.1 = t.branches.filter (branchCond event g) ∧
      (out.2.2.2 = true ↔ (∃ c, t.body = TopBody.comp c) ∧
        (∀ lastB ∈ t.branches.getLast?, branchCond event g lastB = false)) := by
  unfold dispatchEvent at h
  rw [Option.bind_eq_some] at h
  obtain ⟨t', ht', h⟩ := h
  injection ht'.symm.trans ht with hE
  subst hE
  cases hb : t'.body with
  | simple e x =>
    rw [hb] at h
    rw [Option.map_eq_some'] at h
    obtain ⟨r, hr, hout⟩ := h
    constructor
    · rw [← hout]
      exact fireSeq_fired_eq_filter m event g t'.branches cfg r hr
    · rw [← hout]
      simp [hb]
  | comp c =>
    rw [hb] at h
    cases hl : t'.branches.getLast? with
    | none =>
      rw [hl] at h
      have hnil : t'.branches = [] := by
        cases hbs : t'.branches with
        | nil => rfl
        | cons x xs => rw [hbs] at hl; simp at hl
      rw [Option.map_eq_some'] at h
      obtain ⟨r, _, hout⟩ := h
      rw [← hout]
      simp [hnil, hb]
    | some lastB =>
      rw [hl] at h
      rw [Option.bind_eq_some] at h
      obtain ⟨r, hr, h⟩ := h
      have hfil := fireSeq_fired_eq_filter m event g t'.branches cfg r hr
      by_cases hc : branchCond event g lastB
      · rw [if_pos hc] at h
        injection h with h2
        rw [← h2]
        refine ⟨hfil, ?_⟩
        constructor
        · intro hFT
          exact absurd hFT (by simp)
        · rintro ⟨-, hall⟩
          have hfalse := hall lastB (Option.mem_def.mpr rfl)
          rw [hfalse] at hc
          exact absurd hc (by simp)
      · rw [if_neg hc] at h
        rw [Option.map_eq_some'] at h
        obtain ⟨r2, _, hout⟩ := h
        rw [← hout]
        refine ⟨hfil, ?_⟩
        constructor
        · intro _
          refine ⟨⟨c, rfl⟩, ?_⟩
          intro b hbm
          rw [Option.mem_def] at hbm
          injection hbm with hbm
          subst hbm
          simpa using hc
        · intro _
          rfl

/-- C3 amended witness at the two-branch machine: both branches fire and no
delegation happens on a simple state. -/
theorem C3_all_matching_branches_fire_witness :
    ∃ out : MCfg × List String × List Trans × Bool, ∃ t : TopState,
      twoBranchMachine.tops.get? twoBranchCfg.cur = some t ∧
      out.2.2.1 = t.branches.filter (branchCond "e" (fun _ => false)) ∧
      (out.2.2.2 = true ↔ (∃ c, t.body = TopBody.comp c) ∧
        (∀ lastB ∈ t.branches.getLast?,
          branchCond "e" (fun _ => false) lastB = false)) := by
  refine ⟨({ cur := 2
           , cfgs := [ { st := none, hist := none }, { st := none, hist := none }
                     , { st := none, hist := none } ] }, [],
           [ { src := "a", tgt := "b", event := "e", guard := none, useHist := false }
           , { src := "a", tgt := "c", event := "e", guard := none, useHist := false } ],
           false),
         { name := "a", body := .simple none none
         , branches :=
             [ { src := "a", tgt := "b", event := "e", guard := none, useHist := false }
             , { src := "a", tgt := "c", event := "e", guard := none, useHist := false } ] },
         by decide, ?_⟩
  exact C3_all_matching_branches_fire twoBranchMachine twoBranchCfg "e" (fun _ => false)
    _ _ (by decide) (by decide)

/-- C6: a composite's `exit()` runs the active substate's exit first and
the composite's own bound exit action (if any) afterwards — exit actions
fire innermost-first, both for the generated override (bound exit action)
and for the inherited `CompositeState.exit` (no bound action, empty
`toList`). -/
theorem C6_exit_innermost_first (c : Comp) (cfg : CompCfg) (tr : List String)
    (h : compExit c cfg = some tr) :
    ∃ i s, cfg.st = some i ∧ c.subs.get? i = some s ∧
      tr = subExitRun s ++ c.exitA.toList := by
  unfold compExit compSubExit at h
  cases hA : c.exitA with
  | some a =>
    rw [hA] at h
    simp only [Option.map_eq_some', Option.bind_eq_some] at h
    obtain ⟨tr0, ⟨s, ⟨i, hi, hg⟩, hs⟩, htr⟩ := h
    exact ⟨i, s, hi, hg, by rw [← htr, ← hs]; rfl⟩
  | none =>
    rw [hA] at h
    simp only [Option.map_eq_some', Option.bind_eq_some] at h
    obtain ⟨s, ⟨i, hi, hg⟩, hs⟩ := h
    exact ⟨i, s, hi, hg, by rw [← hs]; simp [Option.toList]⟩

/-- C6 witness: the leaf's exit action precedes the composite's own. -/
theorem C6_exit_innermost_first_witness :
    ∃ i s, (({ st := some 0, hist := none } : CompCfg)).st = some i ∧
      exitCompEx.subs.get? i = some s ∧
      ["leafExit", "piepen"] = subExitRun s ++ exitCompEx.exitA.toList :=
  C6_exit_innermost_first exitCompEx { st := some 0, hist := none }
    ["leafExit", "piepen"] (by decide)

/-- C10: a successful `StateMachine` construction points the active-state
pointer at the target of the first top-level `[*] -->` transition and runs
that state's entry chain (its bound entry action, then for a composite the
declared initial substate's) exactly once before the constructor
returns. -/
theorem C10_construction_enters_initial (m : Machine) (out : MCfg × List String)
    (h : stateMachineInit m = some out) :
    ∃ nm k t, firstInitTarget m.trans = some nm ∧ findTop m nm = some k ∧
      m.tops.get? k = some t ∧ out.1.cur = k ∧ entryChainActs t.body = some out.2 := by
  simp only [stateMachineInit, Option.bind_eq_some, Option.map_eq_some'] at h
  obtain ⟨nm, h0, k, h1, t, h2, p, h3, hout⟩ := h
  refine ⟨nm, k, t, h0, h1, h2, by rw [← hout], ?_⟩
  rw [← hout]
  cases hb : t.body with
  | simple e x =>
    rw [hb] at h3
    simp only [topEntryNoArg] at h3
    injection h3 with h3
    rw [← h3]
    rfl
  | comp c =>
    rw [hb] at h3
    simp only [topEntryNoArg, compEntry, Bool.and_false, if_neg, Bool.false_eq_true,
      not_false_iff, if_false] at h3
    rw [Option.bind_eq_some] at h3
    obtain ⟨i, hf, h3⟩ := h3
    rw [Option.map_eq_some'] at h3
    obtain ⟨s, hg, hp⟩ := h3
    simp only [entryChainActs, hf, Option.some_bind, hg, Option.map_some']
    rw [← hp]
    rfl

/-- C10 witness at the one-state machine with an entry action. -/
theorem C10_construction_enters_initial_witness :
    ∃ nm k t, firstInitTarget initMachineEx.trans = some nm ∧
      findTop initMachineEx nm = some k ∧ initMachineEx.tops.get? k = some t ∧
      ({ cur := 0, cfgs := [{ st := none, hist := none }] } : MCfg).cur = k ∧
      entryChainActs t.body = some ["a_on"] :=
  C10_construction_enters_initial initMachineEx
    ({ cur := 0, cfgs := [{ st := none, hist := none }] }, ["a_on"]) (by decide)

/-!
Part 2 models `parser/puml_to_ast.py`: the treelib tree it mutates, node
creation with treelib's error behaviour (duplicate identifiers raise
`DuplicatedNodeIdError`, an absent parent raises `NodeIDAbsentError`), the
line scanner `find_state`, `create_state` / `create_transition` /
`create_entry` / `create_exit`, and the brace-balancing loop of
`explore_inner`.  Python identifies nodes either by strings or by
`random.random()` floats; floats never compare equal to strings, so node
identifiers are modelled as `Sum String Nat` with a fresh counter standing
in for the random draw.  Uncaught Python exceptions are `Except.error`
with the exception text.  The input is the token-line list the constructor
produces (`split("\n")` then `split(" ")` per line).
-/

/-- Python `str.lower()` for the ASCII inputs at hand, written over the
character list so concrete parses evaluate inside the kernel. -/
def pyLower (s : String) : String := String.mk (s.data.map Char.toLower)

/-- Python single-character `str.split` at the character-list level: split
at every separator occurrence, keeping empty pieces (as Python does). -/
def splitChar (sep : Char) : List Char → List (List Char)
  | [] => [[]]
  | c :: cs =>
    let r := splitChar sep cs
    if c = sep then [] :: r
    else
      match r with
      | [] => [[c]]
      | h :: rest => (c :: h) :: rest

/-- Python `s.split(sep)` for a single-character separator (the source
splits only on `":"`, `"_"` and `"["`). -/
def pySplit (s : String) (sep : Char) : List String :=
  (splitChar sep s.data).map String.mk

/-- Python `s.startswith(pre)`, written over the character lists. -/
def pyStartsWith (s pre : String) : Bool :=
  pre.data.isPrefixOf s.data

/-- A treelib node identifier: a string id or a random (counter) id. -/
abbrev NodeId := Sum String Nat

/-- Shorthand for string node identifiers. -/
def sid (s : String) : NodeId := Sum.inl s

/-- Shorthand for random (fresh-counter) node identifiers. -/
def rid (n : Nat) : NodeId := Sum.inr n

/-- Rendering of an identifier into exception text. -/
def idStr : NodeId → String
  | Sum.inl s => s
  | Sum.inr n => "#" ++ toString n

/-- One treelib node: identifier, tag, and parent pointer. -/
structure TNode where
  id : NodeId
  tag : String
  parent : Option NodeId
deriving Repr, DecidableEq

/-- The tree as its node list in insertion order (treelib preserves child
insertion order). -/
abbrev Tree := List TNode

/-- Membership of an identifier in the tree. -/
def hasNode (t : Tree) (i : NodeId) : Bool :=
  t.any (fun n => n.id == i)

/-- treelib `create_node(tag, id, parent)`: raises `DuplicatedNodeIdError`
for an already-present identifier, `NodeIDAbsentError` for a missing
parent, otherwise appends the node. -/
def createNode (t : Tree) (tag : String) (i : NodeId) (parent : Option NodeId) :
    Except String Tree :=
  if hasNode t i then Except.error ("DuplicatedNodeIdError: " ++ idStr i)
  else
    match parent with
    | none => Except.ok (t ++ [{ id := i, tag := tag, parent := none }])
    | some p =>
      if hasNode t p then Except.ok (t ++ [{ id := i, tag := tag, parent := some p }])
      else Except.error ("NodeIDAbsentError: " ++ idStr p)

/-- Parser state: the tree plus the counter standing in for
`random.random()` draws. -/
structure PSt where
  tree : Tree
  ctr : Nat
deriving Repr, DecidableEq

/-- Python `s.split(":")[0]`. -/
def pyColonHead (s : String) : String := (pySplit s ':').headD ""

/-- Python `s.split("_")[0]`, also `"_".join(s.split("_")[:1])`. -/
def firstComp (s : String) : String := (pySplit s '_').headD ""

/-- Python `s.split("_")[-1]`. -/
def lastComp (s : String) : String := (pySplit s '_').getLastD ""

/-- Python list indexing: an out-of-range index raises IndexError. -/
def pyGet (l : List String) (i : Nat) : Except String String :=
  match l.get? i with
  | some s => Except.ok s
  | none => Except.error "IndexError: list index out of range"

/-- The brace-matching loop of `explore_inner`: starting at the opening
line with counters `(opened, closed)` (initialised `(1, 0)` by the
parser), advance line by line counting lines that contain a brace token,
until the counters balance; running past the end of the input is Python's
uncaught IndexError, modelled `none`.  `fuel` bounds the iterations;
`data.length + 1` always suffices because every step advances the line
index and indexes into `data`. -/
def scanClose : Nat → List (List String) → Nat → Nat → Nat → Option Nat
  | 0, _, _, _, _ => none
  | fuel+1, data, lline, opened, closed =>
    if opened = closed then some lline
    else
      match data.get? (lline + 1) with
      | none => none
      | some l =>
        scanClose fuel data (lline + 1)
          (opened + (if l.contains "\x7b" then 1 else 0))
          (closed + (if l.contains "\x7d" then 1 else 0))

/-- Event label recorded for a transition line by `create_transition`:
token `i+4` when the line is long enough, the placeholder `+` otherwise. -/
def transEventTag (line : List String) (i : Nat) : String :=
  if line.length ≥ i + 5 then line.getD (i + 4) "" else "+"

/-- Guard recorded for a transition line by `create_transition`: present
only when the line has more than `i+6` tokens; its text is
`"".join(line[7:])[1:-1]` — the concatenation of the tokens from FIXED
index 7, stripped of its first and last character. -/
def transGuard (line : List String) (i : Nat) : Option String :=
  if line.length > i + 6 then
    some (((String.join (line.drop 7)).drop 1).dropRight 1)
  else none

/-- `Parser.create_entry`: binds the rest of the line as the state's entry
action.  Both created node ids are derived from the state name alone, so a
repeated `Entry:` line for the same state collides. -/
def createEntry (st : PSt) (line : List String) (i : Nat) (parent : String) :
    Except String PSt :=
  let state := pyLower (pyColonHead (line.getD i ""))
  let entryName := "entry_" ++ state
  let entryClear := String.intercalate " " (line.drop (i + 2))
  let entryUnderline := pyLower (String.intercalate "_" (line.drop (i + 2)))
  (createNode st.tree "entry" (sid entryName)
      (some (sid (state ++ "_in_" ++ parent)))).bind fun t1 =>
    (createNode t1 entryClear (sid (entryName ++ "_" ++ entryUnderline))
        (some (sid entryName))).map fun t2 => { st with tree := t2 }

/-- `Parser.create_exit`: mirror of `create_entry` for exit actions. -/
def createExit (st : PSt) (line : List String) (i : Nat) (parent : String) :
    Except String PSt :=
  let state := pyLower (pyColonHead (line.getD i ""))
  let exitName := "exit_" ++ state
  let exitClear := String.intercalate " " (line.drop (i + 2))
  let exitUnderline := pyLower (String.intercalate "_" (line.drop (i + 2)))
  (createNode st.tree "exit" (sid exitName)
      (some (sid (state ++ "_in_" ++ parent)))).bind fun t1 =>
    (createNode t1 exitClear (sid (exitName ++ "_" ++ exitUnderline))
        (some (sid exitName))).map fun t2 => { st with tree := t2 }

/-- `Parser.explore_inner`: when the opening line contains a brace token,
scan forward for the balancing close (counters start at `(1, 0)`), then
recurse into the slice `data[line:lline]` at depth `i+2` with the new
state as parent.  A scan that runs past the end of the input is the
uncaught IndexError. -/
def exploreInner (recur : PSt → List (List String) → Nat → String → Except String PSt)
    (st : PSt) (lineIdx : Nat) (data : List (List String)) (i : Nat)
    (parent : String) : Except String PSt :=
  if (data.getD lineIdx []).contains "\x7b" then
    match scanClose (data.length + 1) data lineIdx 1 0 with
    | none => Except.error "IndexError: list index out of range"
    | some lline =>
      recur st ((data.drop lineIdx).take (lline - lineIdx)) (i + 2) (pyLower parent)
  else Except.ok st

/-- `Parser.create_state`: strips the parent to its first underscore
component, resolves the state name (from the line when not supplied),
creates the state node with its `transitions_in` / `states_in` scope
leaves unless the name is the initial pseudostate literal or already
present, records a declared history marker, and explores a braced body.
`recur` is the `find_state` recursion used by `explore_inner`. -/
def createStateCore
    (recur : PSt → List (List String) → Nat → String → Except String PSt)
    (st : PSt) (lineIdx i : Nat) (parentRaw : String) (braces : Bool)
    (data : List (List String)) (newNode? : Option String) : Except String PSt :=
  let parent := firstComp parentRaw
  (match newNode? with
   | none => (pyGet (data.getD lineIdx []) (i + 1)).map pyLower
   | some n => Except.ok n).bind fun newNode =>
  let newNodeId := newNode ++ "_in_" ++ parent
  (if !hasNode st.tree (sid newNodeId) && newNode != "[*]" then
      (createNode st.tree newNodeId (sid newNodeId)
          (some (sid ("states_in_" ++ parent)))).bind fun t1 =>
      (createNode t1 ("transitions_in_" ++ newNode)
          (sid ("transitions_in_" ++ newNode)) (some (sid newNodeId))).bind fun t2 =>
      (createNode t2 ("states_in_" ++ newNode)
          (sid ("states_in_" ++ newNode)) (some (sid newNodeId))).map fun t3 =>
        { st with tree := t3 }
    else Except.ok st).bind fun st1 =>
  (if (pySplit newNode '[').length = 2 then
      (createNode st1.tree ("history_state_" ++ newNode) (sid ("h_" ++ newNode))
          (some (sid ("states_in_" ++ newNode)))).map fun t => { st1 with tree := t }
    else Except.ok st1).bind fun st2 =>
  if braces then exploreInner recur st2 lineIdx data i newNodeId
  else Except.ok st2

/-- `Parser.create_transition`: records the transition root (tagged with
the event label) under the scope's transition list — retrying per the
`except NodeIDAbsentError` handler —, the source and goal leaves,
implicitly creates endpoint states (the goal only when the SOURCE is not
the initial pseudostate), handles a bracketed history target, and records
the guard. -/
def createTransition
    (recur : PSt → List (List String) → Nat → String → Except String PSt)
    (st : PSt) (line : List String) (i : Nat) (parent : String) :
    Except String PSt :=
  (pyGet line i).bind fun tok0 =>
  (pyGet line (i + 2)).bind fun tok2 =>
  let sourceState := pyLower (pyColonHead tok0)
  let goalState := pyLower (pyColonHead tok2)
  let c0 := st.ctr
  (match createNode st.tree (transEventTag line i) (rid c0)
      (some (sid ("transitions_in_" ++ parent))) with
   | Except.ok t => Except.ok t
   | Except.error e =>
     if line.length ≥ i + 5 then Except.error e
     else createNode st.tree "+" (rid c0) (some (sid "transitions"))).bind fun t1 =>
  (createNode t1 "source_state" (rid (c0 + 1)) (some (rid c0))).bind fun t2 =>
  (createNode t2 sourceState (rid (c0 + 2)) (some (rid (c0 + 1)))).bind fun t3 =>
  (if !hasNode t3 (sid (sourceState ++ "_in_" ++ parent)) && sourceState != "[*]" then
      createStateCore recur { tree := t3, ctr := c0 + 3 } 0 i parent false []
        (some sourceState)
    else Except.ok ({ tree := t3, ctr := c0 + 3 } : PSt)).bind fun stA =>
  (if (pySplit goalState '[').length = 2 then
      let hc0 := (pySplit goalState '[').headD ""
      (createNode stA.tree "goal_state" (rid stA.ctr) (some (rid c0))).bind fun t4 =>
      (createNode t4 ("history_state_" ++ hc0) (rid (stA.ctr + 1))
          (some (rid stA.ctr))).bind fun t5 =>
      (if !hasNode t5 (sid ("h_" ++ hc0)) then
          createNode t5 "history" (sid ("h_" ++ hc0))
            (some (sid (hc0 ++ "_in_" ++ parent)))
        else Except.ok t5).map fun t6 => ({ tree := t6, ctr := stA.ctr + 2 } : PSt)
    else
      (createNode stA.tree "goal_state" (rid stA.ctr) (some (rid c0))).bind fun t4 =>
      (createNode t4 goalState (rid (stA.ctr + 1)) (some (rid stA.ctr))).bind fun t5 =>
      (if !hasNode t5 (sid (goalState ++ "_in_" ++ parent)) && sourceState != "[*]" then
          createStateCore recur { tree := t5, ctr := stA.ctr + 2 } 0 i parent false []
            (some goalState)
        else Except.ok ({ tree := t5, ctr := stA.ctr + 2 } : PSt))).bind fun stB =>
  match transGuard line i with
  | some gtext =>
    (createNode stB.tree "guard" (rid stB.ctr) (some (rid c0))).bind fun t7 =>
    (createNode t7 gtext (rid (stB.ctr + 1)) (some (rid stB.ctr))).map fun t8 =>
      ({ tree := t8, ctr := stB.ctr + 2 } : PSt)
  | none => Except.ok stB

/-- `Parser.find_state`: for every line long enough for depth `i`, apply
the four independent per-line rules (state declaration, transition,
`Entry:` binding, `Exit:` binding) with the parent reductions the source
applies per rule.  `fuel` bounds the nesting recursion; `data.length + 1`
suffices since every recursion works on a strictly shorter slice. -/
def findStateF : Nat → PSt → List (List String) → Nat → String → Except String PSt
  | 0, _, _, _, _ => Except.error "recursion fuel exhausted"
  | fuel + 1, st, data, i, parent =>
    (List.range data.length).foldlM
      (fun st ln =>
        let line := data.getD ln []
        if line.length ≥ i + 2 then
          (if line.getD i "" == "state" then
              createStateCore (findStateF fuel) st ln i parent true data none
            else Except.ok st).bind fun st1 =>
          (if line.getD (i + 1) "" == "-->" || line.getD (i + 1) "" == "->" then
              createTransition (findStateF fuel) st1 line i (firstComp parent)
            else Except.ok st1).bind fun st2 =>
          (if line.getD (i + 1) "" == "Entry:" then
              createEntry st2 line i (lastComp parent)
            else Except.ok st2).bind fun st3 =>
          if line.getD (i + 1) "" == "Exit:" then
            createExit st3 line i (lastComp parent)
          else Except.ok st3
        else Except.ok st)
      st

/-- `Parser.puml_to_ast` on token-line input: creates the root node and its
`transitions_in` / `states_in` scope nodes, then runs `find_state` from
depth 0 under the root. -/
def runParse (root : String) (data : List (List String)) : Except String PSt :=
  (createNode [] root (sid root) none).bind fun t1 =>
  (createNode t1 ("transitions_in_" ++ root) (sid ("transitions_in_" ++ root))
      (some (sid root))).bind fun t2 =>
  (createNode t2 ("states_in_" ++ root) (sid ("states_in_" ++ root))
      (some (sid root))).bind fun t3 =>
  findStateF (data.length + 1) { tree := t3, ctr := 0 } data 0 root

/-- Success test for a parse or generation result. -/
def isOkE {α : Type} : Except String α → Bool
  | Except.ok _ => true
  | Except.error _ => false

/-- Tree of a successful parse (empty on error). -/
def okTree : Except String PSt → Tree
  | Except.ok st => st.tree
  | Except.error _ => []

/-!
Part 3 models `src/generator.py` at the text level: walking the parsed
tree and emitting the generated source as a list of lines.  treelib
`children` of a missing identifier raises `NodeIDAbsentError` (caught only
around the `is_composite` probe); `children(x)[0]` on a childless node is
an IndexError.  `self.actions` is a Python set; it is modelled as an
insertion-ordered duplicate-free list, which fixes an iteration order —
no claim depends on the stub order.
-/

/-- treelib `children`: children of the node in insertion order, or
`NodeIDAbsentError`. -/
def childrenE (t : Tree) (i : NodeId) : Except String (List TNode) :=
  if hasNode t i then Except.ok (t.filter (fun n => n.parent == some i))
  else Except.error ("NodeIDAbsentError: " ++ idStr i)

/-- treelib `get_node`: `None` when absent. -/
def getNode (t : Tree) (i : NodeId) : Option TNode :=
  t.find? (fun n => n.id == i)

/-- `self.tree.children(x)[0].tag`. -/
def firstChildTag (t : Tree) (i : NodeId) : Except String String :=
  (childrenE t i).bind fun cs =>
    match cs.head? with
    | some c => Except.ok c.tag
    | none => Except.error "IndexError: list index out of range"

/-- `Generator.uses_history`: does any child of the state node carry the
`history` tag. -/
def usesHistory (t : Tree) (n : TNode) : Except String Bool :=
  (childrenE t n.id).map (fun cs => cs.any (fun c => c.tag == "history"))

/-- Python `str.capitalize`: first character upper-cased, the rest
lowered. -/
def pyCapitalize (s : String) : String :=
  String.mk ((s.data.take 1).map Char.toUpper ++ (s.data.drop 1).map Char.toLower)

/-- Python rendering of an optional string inside an f-string
(`None` when absent). -/
def pyStr : Option String → String
  | some s => s
  | none => "None"

/-- Generator state: the emitted lines and the collected action names. -/
structure GenSt where
  lines : List String
  actions : List String
deriving Repr, DecidableEq

/-- `self.actions.add`: set insertion. -/
def addAction (acts : List String) (a : String) : List String :=
  if acts.contains a then acts else acts ++ [a]

/-- The constant base-class block `emit_base_classes` appends. -/
def baseClassLines : List String :=
  [ "from abc import ABC, abstractmethod", "", ""
  , "class State(ABC):", "    @abstractmethod"
  , "    def __init__(self, context):", "        pass", ""
  , "    def entry(self, use_hist: bool = False):", "        pass", ""
  , "    def exit(self):", "        pass", ""
  , "    def dispatch(self, event: str):", "        pass", "", ""
  , "class SimpleState(State):", "    def __init__(self, context):"
  , "        self.context = context", "", ""
  , "class CompositeState(State):", "    @property"
  , "    def state(self) -> State:", "        return self._state", ""
  , "    @abstractmethod", "    def entry(self, use_hist: bool = False):"
  , "        pass", ""
  , "    def exit(self):", "        self.state.exit()", ""
  , "    def dispatch(self, event: str):", "        self.state.dispatch(event)", ""
  , "    def transition(self, new_state: State, use_hist: bool = False):"
  , "        self.state.exit()", "        self._state = new_state"
  , "        self.state.entry(use_hist)", "", ""
  , "class CompositeStateWithHistory(CompositeState):", "    @property"
  , "    def history(self) -> State:", "        return self._history", ""
  , "    def transition(self, new_state: State, use_hist: bool = False):"
  , "        self.state.exit()", "        self._state = new_state"
  , "        self._history = self._state", "        self.state.entry(use_hist)"
  , "", "" ]

/-- The entry/exit collection loop of `emit_entry_exit`: scans the state
node's children for `entry` / `exit` tags, reading the bound action from
the first grandchild and adding it to the action set. -/
def collectEntryExit (t : Tree) (n : TNode) (acts : List String) :
    Except String (Option String × Option String × List String) :=
  (childrenE t n.id).bind fun cs =>
    cs.foldlM
      (fun (st : Option String × Option String × List String) c =>
        if c.tag == "entry" then
          (firstChildTag t c.id).map fun a => (some a, st.2.1, addAction st.2.2 a)
        else if c.tag == "exit" then
          (firstChildTag t c.id).map fun a => (st.1, some a, addAction st.2.2 a)
        else Except.ok st)
      (none, none, acts)

/-- The source/target extraction loop shared by `emit_entry_exit` and
`emit_state_machine` (initialised to `None`). -/
def transSourceTarget (t : Tree) (tn : TNode) :
    Except String (Option String × Option String) :=
  (childrenE t tn.id).bind fun cs =>
    cs.foldlM
      (fun (st : Option String × Option String) c =>
        if c.tag == "source_state" then
          (firstChildTag t c.id).map fun s => (some s, st.2)
        else if c.tag == "goal_state" then
          (firstChildTag t c.id).map fun gl => (st.1, some gl)
        else Except.ok st)
      (none, none)

/-- The source/target/guard extraction loop of `emit_dispatch`
(initialised to empty strings). -/
def transSourceTargetGuard (t : Tree) (tn : TNode) :
    Except String (String × String × String) :=
  (childrenE t tn.id).bind fun cs =>
    cs.foldlM
      (fun (st : String × String × String) c =>
        if c.tag == "source_state" then
          (firstChildTag t c.id).map fun s => (s, st.2.1, st.2.2)
        else if c.tag == "goal_state" then
          (firstChildTag t c.id).map fun gl => (st.1, gl, st.2.2)
        else if c.tag == "guard" then
          (firstChildTag t c.id).map fun gu => (st.1, st.2.1, gu)
        else Except.ok st)
      ("", "", "")

/-- The `for ... break` search for the first transition whose source is the
initial pseudostate; yields that transition's rendered target when found. -/
def findInitAssign (t : Tree) : List TNode → Except String (Option (Option String))
  | [] => Except.ok none
  | tn :: rest =>
    (transSourceTarget t tn).bind fun st =>
      if st.1 == some "[*]" then Except.ok (some st.2)
      else findInitAssign t rest

/-- `Generator.emit_init`: constructor emission for composite states; one
field per substate, skipping `[*]`-tagged children; `_state` (and
`_history` when used) initialised to `None`. -/
def emitInit (t : Tree) (n : TNode) (composite hasHist : Bool) (g : GenSt) :
    Except String GenSt :=
  if !composite then Except.ok g
  else
    (childrenE t (sid ("states_in_" ++ n.tag))).map fun subs =>
      let fieldLines := (subs.filter (fun sub => sub.tag != "[*]")).map
        (fun sub =>
          "        self." ++ sub.tag ++ " = " ++ pyCapitalize sub.tag ++ "(self)")
      { g with lines := g.lines ++
          ["    def __init__(self, context):", "        self.context = context"] ++
          fieldLines ++ ["        self._state = None"] ++
          (if hasHist then ["        self._history = None"] else []) ++ [""] }

/-- `Generator.emit_entry_exit`: entry/exit method emission.  For a
composite: entry action, optional history restore branch, the `[*]`
assignment from the scoped transition list, then the recursive
`self.state.entry()`; the exit override (substate exit first, own action
second) only when an exit action is bound.  For a simple state: overrides
only for bound actions, with an argument-free `entry(self)` signature. -/
def emitEntryExit (t : Tree) (n : TNode) (isComposite hasHist : Bool) (g : GenSt) :
    Except String GenSt :=
  (collectEntryExit t n g.actions).bind fun (entry?, exit?, acts) =>
  if isComposite then
    (childrenE t (sid ("transitions_in_" ++ n.tag))).bind fun trs =>
    (findInitAssign t trs).map fun initTgt? =>
      let entryHdr := ["    def entry(self, use_hist: bool = False):"] ++
        (match entry? with
         | some e => ["        " ++ e ++ "()", ""]
         | none => []) ++
        (if hasHist then
           ["        if use_hist:", "            self._state = self._history",
            "        else:"]
         else [])
      let initLine := match initTgt? with
        | some tgt =>
          [(if hasHist then "            self._state = self."
            else "        self._state = self.") ++ pyStr tgt]
        | none => []
      let tailLines := ["", "        self.state.entry()", ""] ++
        (match exit? with
         | some x =>
           ["    def exit(self):", "        self.state.exit()",
            "        " ++ x ++ "()", ""]
         | none => [])
      { lines := g.lines ++ entryHdr ++ initLine ++ tailLines, actions := acts }
  else
    Except.ok
      { lines := g.lines ++
          (match entry? with
           | some e => ["    def entry(self):", "        " ++ e ++ "()", ""]
           | none => []) ++
          (match exit? with
           | some x => ["    def exit(self):", "        " ++ x ++ "()", ""]
           | none => [])
      , actions := acts }

/-- `Generator.emit_dispatch`: looks the state's transitions up in its
GRANDPARENT scope's transition list, emits one `if` branch per transition
whose source equals this state's tag (condition `event == "<label>"`
conjoined with the guard), with history-directed targets calling
`transition(..., use_hist=True)`; a composite gets a single trailing
`else:` delegating to the substate.  Nothing is emitted when no branch
matches. -/
def emitDispatch (t : Tree) (n : TNode) (isComposite : Bool) (g : GenSt) :
    Except String GenSt :=
  match n.parent.bind (getNode t) with
  | none => Except.error "AttributeError: NoneType object has no attribute"
  | some pn =>
    match pn.parent.bind (getNode t) with
    | none => Except.error "AttributeError: NoneType object has no attribute"
    | some gpn =>
      (childrenE t (sid ("transitions_in_" ++ gpn.tag))).bind fun trs =>
      (trs.foldlM
        (fun (acc : List String) tn =>
          (transSourceTargetGuard t tn).map fun (src, tgt, gu) =>
            if src != n.tag then acc
            else
              let cond := "event == \"" ++ tn.tag ++ "\"" ++
                (if gu != "" then " and (self.context." ++ gu ++ ")" else "")
              acc ++ ["        if " ++ cond ++ ":"] ++
                (if pyStartsWith tgt "history_state_" then
                   ["            self.context.transition(self.context." ++
                     tgt.drop 14 ++ ", use_hist=True)"]
                 else
                   ["            self.context.transition(self.context." ++
                     tgt ++ ")"]))
        []).map fun dl =>
      if dl.isEmpty then g
      else
        { g with lines := g.lines ++ ["    def dispatch(self, event: str):"] ++ dl ++
            (if isComposite then
               ["        else:", "            self.state.dispatch(event)"]
             else []) ++ [""] }

/-- `Generator.emit_state` parameterised over the `emit_states` recursion:
probes compositeness (the `except NodeIDAbsentError` fallback), selects
the superclass, emits the class line and the member sections, and recurses
into substates for composites. -/
def emitStateWith (recurStates : String → GenSt → Except String GenSt)
    (t : Tree) (n : TNode) (g : GenSt) : Except String GenSt :=
  let name := n.tag
  let isComposite :=
    match childrenE t (sid ("states_in_" ++ name)) with
    | Except.ok l => !l.isEmpty
    | Except.error _ => false
  (if isComposite then usesHistory t n else Except.ok false).bind fun hasHist =>
  let superClass :=
    if isComposite then
      if hasHist then "CompositeStateWithHistory" else "CompositeState"
    else "SimpleState"
  let g1 := { g with lines := g.lines ++
    ["class " ++ pyCapitalize name ++ "(" ++ superClass ++ "):"] }
  (emitInit t n isComposite hasHist g1).bind fun g2 =>
  (emitEntryExit t n isComposite hasHist g2).bind fun g3 =>
  (emitDispatch t n isComposite g3).bind fun g4 =>
  let g5 := { g4 with lines := g4.lines ++ [""] }
  if isComposite then recurStates name g5 else Except.ok g5

/-- `Generator.emit_states`: emits every child of the scope's state list in
order; `fuel` bounds the nesting recursion. -/
def emitStatesF : Nat → Tree → String → GenSt → Except String GenSt
  | 0, _, _, _ => Except.error "recursion fuel exhausted"
  | fuel + 1, t, parent, g =>
    (childrenE t (sid ("states_in_" ++ parent))).bind fun cs =>
      cs.foldlM (fun g n => emitStateWith (emitStatesF fuel t) t n g) g

/-- `Generator.emit_state_machine`: the orchestrator class — one field per
top-level state (skipping `[*]` tags), the `self.state` wiring from the
first `[*]` transition, the single `entry()` call, and the dispatch and
transition methods. -/
def emitStateMachine (t : Tree) (root : String) (g : GenSt) :
    Except String GenSt :=
  (childrenE t (sid ("states_in_" ++ root))).bind fun cs =>
  let fieldLines := (cs.filter (fun n => n.tag != "[*]")).map fun n =>
    "        self." ++ n.tag ++ " = " ++ pyCapitalize n.tag ++ "(self)"
  (childrenE t (sid ("transitions_in_" ++ root))).bind fun trs =>
  (findInitAssign t trs).map fun initTgt? =>
    let initLine := match initTgt? with
      | some tgt => ["        self.state = self." ++ pyStr tgt]
      | none => []
    { g with lines := g.lines ++ ["class StateMachine:", "    def __init__(self):"] ++
        fieldLines ++ initLine ++
        ["        self.state.entry()", ""
        , "    def dispatch(self, event: str):"
        , "        self.state.dispatch(event)", ""
        , "    def transition(self, new_state: State, use_hist: bool = False):"
        , "        self.state.exit()", "        self.state = new_state"
        , "        self.state.entry(use_hist)", "", ""] }

/-- `Generator.emit_actions`: one no-op stub per collected action name. -/
def emitActions (g : GenSt) : GenSt :=
  { g with lines := g.lines ++
      (g.actions.foldl (fun acc a => acc ++ ["def " ++ a ++ "():", "    pass", "", ""])
        []) }

/-- `Generator.generate`: base classes, state classes from the root scope,
the StateMachine, then the action stubs. -/
def generateAll (t : Tree) (root : String) : Except String (List String) :=
  (emitStatesF (t.length + 1) t root { lines := baseClassLines, actions := [] }).bind
    fun g1 =>
      (emitStateMachine t root g1).map fun g2 => (emitActions g2).lines

/-- The full pipeline of `src/main.py`: parse, then generate; the driver
writes the output file only after `generate` returns. -/
def runPipeline (root : String) (data : List (List String)) :
    Except String (List String) :=
  (runParse root data).bind fun st => generateAll st.tree root

/-- Lines of a successful generation (empty on error). -/
def okLines : Except String (List String) → List String
  | Except.ok l => l
  | Except.error _ => []

/-- Number of occurrences of a token in the tokenised input. -/
def countTok (tok : String) (data : List (List String)) : Nat :=
  (data.map (fun l => l.count tok)).sum

/-- Helper: when no line of the input contains a closing brace token, the
counters never balance (closed never grows, opened never shrinks) and the
scan runs past the end of the input, for every fuel value. -/
theorem scanClose_no_close (data : List (List String))
    (hnc : ∀ l ∈ data, l.contains "\x7d" = false) :
    ∀ (fuel lline opened closed : Nat), closed < opened →
      scanClose fuel data lline opened closed = none := by
  intro fuel
  induction fuel with
  | zero => intro lline opened closed _; rfl
  | succ n ih =>
    intro lline opened closed hlt
    have hne : ¬ (opened = closed) := by omega
    unfold scanClose
    rw [if_neg hne]
    cases hg : data.get? (lline + 1) with
    | none => rfl
    | some l =>
      have hl := hnc l (List.get?_mem hg)
      refine ih (lline + 1) _ _ ?_
      rw [hl]
      cases hif : l.contains "\x7b" <;> simp [hif] <;> omega

/-- C5 amended: a state block that never closes makes `explore_inner` run
its brace scan past the end of the input and abort with Python's uncaught
IndexError — a fixed diagnostic that names no state — rather than continue
with a mismatched slice; imbalance from surplus close braces is not
detected at all (see the counterexample). -/
theorem C5_unterminated_block_index_error
    (recur : PSt → List (List String) → Nat → String → Except String PSt)
    (st : PSt) (lineIdx : Nat) (data : List (List String)) (i : Nat)
    (parent : String)
    (hbrace : (data.getD lineIdx []).contains "\x7b" = true)
    (hnc : ∀ l ∈ data, l.contains "\x7d" = false) :
    exploreInner recur st lineIdx data i parent =
      Except.error "IndexError: list index out of range" := by
  unfold exploreInner
  rw [if_pos hbrace,
    scanClose_no_close data hnc (data.length + 1) lineIdx 1 0 (by omega)]

/-- C5 amended witness on a one-line input opening a block that never
closes. -/
theorem C5_unterminated_block_index_error_witness :
    exploreInner (fun st _ _ _ => Except.ok st) { tree := [], ctr := 0 } 0
      [["state", "a", "\x7b"]] 0 "m" =
      Except.error "IndexError: list index out of range" :=
  C5_unterminated_block_index_error (fun st _ _ _ => Except.ok st)
    { tree := [], ctr := 0 } 0 [["state", "a", "\x7b"]] 0 "m" (by decide) (by decide)

/-- C5 counterexample: this input has one opening and two closing brace
tokens — unbalanced at end of input — yet the parse completes without any
diagnostic: surplus closers are silently ignored, refuting the claim that
every unterminated brace nesting aborts with a structural diagnostic. -/
theorem C5_surplus_close_counterexample :
    isOkE (runParse "m" [["state", "a", "\x7b"], ["\x7d"], ["\x7d"]]) = true ∧
      countTok "\x7b" [["state", "a", "\x7b"], ["\x7d"], ["\x7d"]] = 1 ∧
      countTok "\x7d" [["state", "a", "\x7b"], ["\x7d"], ["\x7d"]] = 2 := by
  decide

/-- C7 counterexample: at nesting depth 0 the hardcoded slice index 7
destroys the guard (the bracket contents `x > 1` are recorded as the empty
string), and a guard-only transition line records the bracketed segment
itself as the EVENT label — not as a guard, and not an empty event. -/
theorem C7_guard_extraction_counterexample :
    transGuard ["a", "-->", "b", ":", "e", "[x", ">", "1]"] 0 = some "" ∧
      some "" ≠ some "x > 1" ∧ (some "" : Option String) ≠ some "x>1" ∧
      transEventTag ["a", "-->", "b", ":", "[g]"] 0 = "[g]" ∧
      "[g]" ≠ "" ∧
      transGuard ["a", "-->", "b", ":", "[g]"] 0 = none := by
  decide

/-- C7 amended: the event name is the single token at index `i+4`, and a
guard is recorded only when the line has more than `i+6` tokens, as the
concatenation of the tokens from FIXED index 7 stripped of its outer
characters — which equals the bracketed segment exactly at nesting depth 2
(the depth of the supported one-composite-level inputs) and only for
guards spanning at least two tokens; a guard-only bracketed segment
becomes the event label instead. -/
theorem C7_guard_extraction_depth2 (s ar tg e : String) (g : List String)
    (h2 : 2 ≤ g.length) :
    transEventTag ("" :: "" :: s :: ar :: tg :: ":" :: e :: g) 2 = e ∧
      transGuard ("" :: "" :: s :: ar :: tg :: ":" :: e :: g) 2 =
        some (((String.join g).drop 1).dropRight 1) := by
  constructor
  · unfold transEventTag
    rw [if_pos (by simp)]
    rfl
  · unfold transGuard
    rw [if_pos (by simp; omega)]
    rfl

/-- C7 amended witness at depth 2 with a two-token guard. -/
theorem C7_guard_extraction_depth2_witness :
    transEventTag ("" :: "" :: "a" :: "-->" :: "b" :: ":" :: "e" :: ["[x", "20]"]) 2 =
        "e" ∧
      transGuard ("" :: "" :: "a" :: "-->" :: "b" :: ":" :: "e" :: ["[x", "20]"]) 2 =
        some (((String.join ["[x", "20]"]).drop 1).dropRight 1) :=
  C7_guard_extraction_depth2 "a" "-->" "b" "e" ["[x", "20]"] (by decide)

/-- C8 amended: a repeated `Entry:` line for the same state does NOT
silently overwrite the earlier binding — the entry node id is derived from
the state name alone, so treelib raises `DuplicatedNodeIdError` and the
parse aborts. -/
theorem C8_duplicate_entry_errors (st : PSt) (line : List String) (i : Nat)
    (parent : String)
    (hdup : hasNode st.tree
      (sid ("entry_" ++ pyLower (pyColonHead (line.getD i "")))) = true) :
    createEntry st line i parent =
      Except.error ("DuplicatedNodeIdError: " ++
        ("entry_" ++ pyLower (pyColonHead (line.getD i "")))) := by
  simp only [createEntry, createNode, hdup]
  rfl

/-- C8 amended witness: a tree already holding `entry_a` rejects a second
`Entry:` line for state `a`. -/
theorem C8_duplicate_entry_errors_witness :
    createEntry
      { tree := [{ id := sid "entry_a", tag := "entry", parent := none }], ctr := 0 }
      ["a:", "Entry:", "y"] 0 "m" =
      Except.error ("DuplicatedNodeIdError: " ++
        ("entry_" ++ pyLower (pyColonHead (["a:", "Entry:", "y"].getD 0 "")))) :=
  C8_duplicate_entry_errors
    { tree := [{ id := sid "entry_a", tag := "entry", parent := none }], ctr := 0 }
    ["a:", "Entry:", "y"] 0 "m" (by decide)

/-- C8 counterexample: parsing an input with two `Entry:` lines for the
same state aborts with `DuplicatedNodeIdError` — it does not succeed, and
nothing is overwritten. -/
theorem C8_duplicate_entry_aborts_counterexample :
    runParse "m" [["state", "a"], ["a:", "Entry:", "x"], ["a:", "Entry:", "y"]] =
      Except.error "DuplicatedNodeIdError: entry_a" := by
  rfl

/-- C4: for the input `[*] --> x`, with `x` mentioned nowhere else, the
pipeline COMPLETES (no fatal error is raised, so the driver writes the
file) and the emitted source wires `self.state = self.x` although no class
`X` is generated and no field `self.x` is ever assigned: the generator
emits a file referencing an undefined symbol instead of failing the
build. -/
theorem C4_undefined_target_emitted :
    isOkE (runPipeline "m" [["[*]", "-->", "x"]]) = true ∧
      (okLines (runPipeline "m" [["[*]", "-->", "x"]])).contains
        "        self.state = self.x" = true ∧
      (okLines (runPipeline "m" [["[*]", "-->", "x"]])).contains
        "        self.x = X(self)" = false ∧
      (okLines (runPipeline "m" [["[*]", "-->", "x"]])).all
        (fun l => !(pyStartsWith l "class X")) = true := by
  decide

/-- Inversion for `Except.bind` ending in success. -/
theorem bindE_ok {α β : Type} {x : Except String α} {f : α → Except String β} {b : β}
    (h : x.bind f = Except.ok b) : ∃ a, x = Except.ok a ∧ f a = Except.ok b := by
  cases x with
  | error e => exact absurd h (by simp [Except.bind])
  | ok a => exact ⟨a, rfl, h⟩

/-- Inversion for `Except.map` ending in success. -/
theorem mapE_ok {α β : Type} {f : α → β} {x : Except String α} {b : β}
    (h : x.map f = Except.ok b) : ∃ a, x = Except.ok a ∧ f a = b := by
  cases x with
  | error e => exact absurd h (by simp [Except.map])
  | ok a =>
    refine ⟨a, rfl, ?_⟩
    simpa [Except.map] using h

/-- Decidable check that a node is not a registration of the literal
initial pseudostate: the check fails exactly for a node whose string id is
`[*]_in_p` sitting under the scope node `states_in_p`. -/
def stateSlotOkB (n : TNode) : Bool :=
  match n.id, n.parent with
  | Sum.inl s, some (Sum.inl q) =>
    !(decide (s.data.take 7 = "[*]_in_".data) &&
      decide (q.data = "states_in_".data ++ s.data.drop 7))
  | _, _ => true

/-- The parse-tree invariant for C9: no node registers `[*]` as a state. -/
def treeOk (t : Tree) : Bool := t.all stateSlotOkB

/-- Nodes with a random identifier are never state registrations. -/
theorem slotOk_rid (k : Nat) (tag : String) (par : Option NodeId) :
    stateSlotOkB { id := rid k, tag := tag, parent := par } = true := by
  cases par with
  | none => rfl
  | some p => cases p <;> rfl

/-- Parentless nodes are never state registrations. -/
theorem slotOk_parent_none (i : NodeId) (tag : String) :
    stateSlotOkB { id := i, tag := tag, parent := none } = true := by
  cases i <;> rfl

/-- Nodes under a random-id parent are never state registrations. -/
theorem slotOk_parent_rid (i : NodeId) (tag : String) (k : Nat) :
    stateSlotOkB { id := i, tag := tag, parent := some (rid k) } = true := by
  cases i <;> rfl

/-- A character list that does not begin with the opening bracket cannot
have `[*]_in_` as its 7-character prefix. -/
theorem take7_ne_of_head (l : List Char) (h : l.head? ≠ some '[') :
    l.take 7 ≠ "[*]_in_".data := by
  intro he
  cases l with
  | nil => exact absurd he (by decide)
  | cons c cs =>
    rw [List.take_succ_cons] at he
    have hR : ("[*]_in_".data) = '[' :: "*]_in_".data := rfl
    rw [hR] at he
    injection he with h1 _
    exact h (by simp [h1])

/-- The head character of an append is the head of a nonempty prefix. -/
theorem data_head_append (p s : String) (c : Char) (h : p.data.head? = some c) :
    ((p ++ s).data).head? = some c := by
  rw [String.data_append]
  cases hp : p.data with
  | nil => rw [hp] at h; exact absurd h (by simp)
  | cons a t =>
    rw [hp] at h
    simpa using h

/-- A string node whose id starts with a character other than the opening
bracket is never a state registration. -/
theorem slotOk_head (s q tag : String) (c : Char) (hc : s.data.head? = some c)
    (hne : c ≠ '[') :
    stateSlotOkB { id := Sum.inl s, tag := tag, parent := some (Sum.inl q) } = true := by
  have h7 : s.data.take 7 ≠ "[*]_in_".data := by
    refine take7_ne_of_head s.data ?_
    rw [hc]
    intro h'
    exact hne (Option.some.inj h')
  simp [stateSlotOkB, h7]

/-- The node `create_state` registers — id `name_in_scope` under
`states_in_scope` — is never a `[*]` registration, because the creation is
guarded by `name ≠ "[*]"`. -/
theorem slotOk_state_node (nn ps tag : String) (h : nn ≠ "[*]") :
    stateSlotOkB { id := Sum.inl (nn ++ "_in_" ++ ps), tag := tag
                 , parent := some (Sum.inl ("states_in_" ++ ps)) } = true := by
  have key : ¬ ((((nn ++ "_in_" ++ ps).data.take 7 = "[*]_in_".data)) ∧
      (("states_in_" ++ ps).data = "states_in_".data ++ (nn ++ "_in_" ++ ps).data.drop 7)) := by
    rintro ⟨h1, h2⟩
    have hdata : (nn ++ "_in_" ++ ps).data = (nn.data ++ "_in_".data) ++ ps.data := by
      simp [String.data_append]
    have h2' : ps.data = (nn ++ "_in_" ++ ps).data.drop 7 := by
      have hx : "states_in_".data ++ ps.data =
          "states_in_".data ++ (nn ++ "_in_" ++ ps).data.drop 7 := by
        rw [← h2, String.data_append]
      exact List.append_cancel_left hx
    have hlen7 : 7 ≤ (nn ++ "_in_" ++ ps).data.length := by
      have hlt := congrArg List.length h1
      rw [List.length_take] at hlt
      have hmin : min 7 ((nn ++ "_in_" ++ ps).data.length) = 7 := by
        rw [hlt]
        rfl
      omega
    have h4 : ("_in_".data).length = 4 := rfl
    have hlen : (nn ++ "_in_" ++ ps).data.length =
        nn.data.length + 4 + ps.data.length := by
      rw [hdata, List.length_append, List.length_append]
      omega
    have hlendrop : ps.data.length = (nn ++ "_in_" ++ ps).data.length - 7 := by
      rw [h2', List.length_drop]
    have hnnlen : (nn.data ++ "_in_".data).length = 7 := by
      rw [List.length_append]
      omega
    have htake : (nn ++ "_in_" ++ ps).data.take 7 = nn.data ++ "_in_".data := by
      rw [hdata, ← hnnlen, List.take_left]
    rw [htake] at h1
    have h1' : nn.data ++ "_in_".data = "[*]".data ++ "_in_".data := by
      rw [h1]
      rfl
    exact h (congrArg String.mk (List.append_cancel_right h1'))
  simp only [stateSlotOkB, Bool.not_eq_true', Bool.and_eq_false_iff, decide_eq_false_iff_not]
  by_cases hA : (nn ++ "_in_" ++ ps).data.take 7 = "[*]_in_".data
  · exact Or.inr (fun hB => key ⟨hA, hB⟩)
  · exact Or.inl hA

/-- `create_node` preserves the C9 invariant when the appended node
satisfies the per-node check. -/
theorem treeOk_createNode {t t' : Tree} {tag : String} {i : NodeId}
    {par : Option NodeId} (hok : treeOk t = true)
    (hnode : stateSlotOkB { id := i, tag := tag, parent := par } = true)
    (h : createNode t tag i par = Except.ok t') : treeOk t' = true := by
  unfold createNode at h
  by_cases hdup : hasNode t i = true
  · rw [if_pos hdup] at h
    exact absurd h (by simp)
  · rw [if_neg hdup] at h
    cases par with
    | none =>
      injection h with h
      subst h
      simp [treeOk, List.all_append] at hok ⊢
      exact ⟨hok, hnode⟩
    | some p =>
      have h' : (if hasNode t p = true then
            Except.ok (t ++ [{ id := i, tag := tag, parent := some p }])
          else Except.error ("NodeIDAbsentError: " ++ idStr p)) = Except.ok t' := h
      by_cases hp : hasNode t p = true
      · rw [if_pos hp] at h'
        injection h' with h'
        subst h'
        simp [treeOk, List.all_append] at hok ⊢
        exact ⟨hok, hnode⟩
      · rw [if_neg hp] at h'
        exact absurd h' (by simp)

/-- `create_entry` preserves the C9 invariant: both created nodes have ids
starting with `e`. -/
theorem treeOk_createEntry {st : PSt} {line : List String} {i : Nat}
    {parent : String} {st' : PSt} (hok : treeOk st.tree = true)
    (h : createEntry st line i parent = Except.ok st') : treeOk st'.tree = true := by
  unfold createEntry at h
  obtain ⟨t1, h1, h⟩ := bindE_ok h
  obtain ⟨t2, h2, h3⟩ := mapE_ok h
  have k1 := treeOk_createNode hok
    (slotOk_head _ _ _ 'e' (data_head_append "entry_" _ 'e' rfl) (by decide)) h1
  have k2 := treeOk_createNode k1
    (slotOk_head _ _ _ 'e'
      (data_head_append _ _ 'e'
        (data_head_append _ _ 'e' (data_head_append "entry_" _ 'e' rfl))) (by decide)) h2
  rw [← h3]
  exact k2

/-- `create_exit` preserves the C9 invariant. -/
theorem treeOk_createExit {st : PSt} {line : List String} {i : Nat}
    {parent : String} {st' : PSt} (hok : treeOk st.tree = true)
    (h : createExit st line i parent = Except.ok st') : treeOk st'.tree = true := by
  unfold createExit at h
  obtain ⟨t1, h1, h⟩ := bindE_ok h
  obtain ⟨t2, h2, h3⟩ := mapE_ok h
  have k1 := treeOk_createNode hok
    (slotOk_head _ _ _ 'e' (data_head_append "exit_" _ 'e' rfl) (by decide)) h1
  have k2 := treeOk_createNode k1
    (slotOk_head _ _ _ 'e'
      (data_head_append _ _ 'e'
        (data_head_append _ _ 'e' (data_head_append "exit_" _ 'e' rfl))) (by decide)) h2
  rw [← h3]
  exact k2

/-- `explore_inner` preserves the C9 invariant, given that the supplied
recursion does. -/
theorem treeOk_exploreInner
    {recur : PSt → List (List String) → Nat → String → Except String PSt}
    (hrec : ∀ st data i parent st', treeOk st.tree = true →
      recur st data i parent = Except.ok st' → treeOk st'.tree = true)
    {st : PSt} {lineIdx : Nat} {data : List (List String)} {i : Nat}
    {parent : String} {st' : PSt} (hok : treeOk st.tree = true)
    (h : exploreInner recur st lineIdx data i parent = Except.ok st') :
    treeOk st'.tree = true := by
  unfold exploreInner at h
  by_cases hb : ((data.getD lineIdx []).contains "\x7b") = true
  · rw [if_pos hb] at h
    cases hs : scanClose (data.length + 1) data lineIdx 1 0 with
    | none => rw [hs] at h; exact absurd h (by simp)
    | some ll =>
      rw [hs] at h
      exact hrec _ _ _ _ _ hok h
  · rw [if_neg hb] at h
    injection h with h
    subst h
    exact hok

/-- `create_state` preserves the C9 invariant: the state node itself is
protected by the `≠ "[*]"` guard, the two scope leaves hang under the
state node, the history marker id starts with `h`, and the body
exploration is covered by the recursion hypothesis. -/
theorem treeOk_createStateCore
    {recur : PSt → List (List String) → Nat → String → Except String PSt}
    (hrec : ∀ st data i parent st', treeOk st.tree = true →
      recur st data i parent = Except.ok st' → treeOk st'.tree = true)
    {st : PSt} {lineIdx i : Nat} {parentRaw : String} {braces : Bool}
    {data : List (List String)} {newNode? : Option String} {st' : PSt}
    (hok : treeOk st.tree = true)
    (h : createStateCore recur st lineIdx i parentRaw braces data newNode? =
      Except.ok st') :
    treeOk st'.tree = true := by
  unfold createStateCore at h
  obtain ⟨newNode, _, h⟩ := bindE_ok h
  obtain ⟨st1, h1, h⟩ := bindE_ok h
  obtain ⟨st2, h2, h3⟩ := bindE_ok h
  have k1 : treeOk st1.tree = true := by
    by_cases hc :
        (!hasNode st.tree (sid (newNode ++ "_in_" ++ firstComp parentRaw)) &&
          newNode != "[*]") = true
    · rw [if_pos hc] at h1
      have hne : newNode ≠ "[*]" := by
        have := (Bool.and_eq_true _ _).mp hc |>.2
        exact bne_iff_ne.mp this
      obtain ⟨t1, hA, h1⟩ := bindE_ok h1
      obtain ⟨t2, hB, h1⟩ := bindE_ok h1
      obtain ⟨t3, hC, h1⟩ := mapE_ok h1
      have j1 := treeOk_createNode hok (slotOk_state_node _ _ _ hne) hA
      have j2 := treeOk_createNode j1
        (slotOk_head _ _ _ 't' (data_head_append "transitions_in_" _ 't' rfl)
          (by decide)) hB
      have j3 := treeOk_createNode j2
        (slotOk_head _ _ _ 's' (data_head_append "states_in_" _ 's' rfl)
          (by decide)) hC
      rw [← h1]
      exact j3
    · rw [if_neg hc] at h1
      injection h1 with h1
      subst h1
      exact hok
  have k2 : treeOk st2.tree = true := by
    by_cases hc : (pySplit newNode '[').length = 2
    · rw [if_pos hc] at h2
      obtain ⟨t4, hA, h2⟩ := mapE_ok h2
      have j1 := treeOk_createNode k1
        (slotOk_head _ _ _ 'h' (data_head_append "h_" _ 'h' rfl)
          (by decide)) hA
      rw [← h2]
      exact j1
    · rw [if_neg hc] at h2
      injection h2 with h2
      subst h2
      exact k1
  by_cases hb : braces = true
  · rw [if_pos hb] at h3
    exact treeOk_exploreInner hrec k2 h3
  · rw [if_neg hb] at h3
    injection h3 with h3
    subst h3
    exact k2

/-- The `try/except` block creating the transition root preserves the C9
invariant: both paths create a random-id node. -/
theorem treeOk_tryCreate {t t' : Tree} {tag : String} {k : Nat} {p : NodeId}
    {c : Prop} [Decidable c] (hok : treeOk t = true)
    (h : (match createNode t tag (Sum.inr k) (some p) with
          | Except.ok tx => Except.ok tx
          | Except.error e =>
            if c then Except.error e
            else createNode t "+" (Sum.inr k) (some (sid "transitions"))) =
        Except.ok t') :
    treeOk t' = true := by
  cases hc : createNode t tag (Sum.inr k) (some p) with
  | ok tX =>
    rw [hc] at h
    have h' : Except.ok tX = Except.ok t' := h
    injection h' with h'
    subst h'
    exact treeOk_createNode hok (slotOk_rid _ _ _) hc
  | error e =>
    rw [hc] at h
    have h' : (if c then Except.error e
        else createNode t "+" (Sum.inr k) (some (sid "transitions"))) =
        Except.ok t' := h
    by_cases hcc : c
    · rw [if_pos hcc] at h'
      exact absurd h' (by simp)
    · rw [if_neg hcc] at h'
      exact treeOk_createNode hok (slotOk_rid _ _ _) h'

/-- `create_transition` preserves the C9 invariant: the transition record
and its leaves use random ids, endpoint registration goes through
`create_state`, and the history marker id starts with `h`. -/
theorem treeOk_createTransition
    {recur : PSt → List (List String) → Nat → String → Except String PSt}
    (hrec : ∀ st data i parent st', treeOk st.tree = true →
      recur st data i parent = Except.ok st' → treeOk st'.tree = true)
    {st : PSt} {line : List String} {i : Nat} {parent : String} {st' : PSt}
    (hok : treeOk st.tree = true)
    (h : createTransition recur st line i parent = Except.ok st') :
    treeOk st'.tree = true := by
  unfold createTransition at h
  obtain ⟨tok0, _, h⟩ := bindE_ok h
  obtain ⟨tok2, _, h⟩ := bindE_ok h
  obtain ⟨t1, hA, h⟩ := bindE_ok h
  have k1 : treeOk t1 = true := treeOk_tryCreate hok hA
  obtain ⟨t2, hB, h⟩ := bindE_ok h
  have k2 := treeOk_createNode k1 (slotOk_rid _ _ _) hB
  obtain ⟨t3, hC, h⟩ := bindE_ok h
  have k3 := treeOk_createNode k2 (slotOk_rid _ _ _) hC
  obtain ⟨stA, hD, h⟩ := bindE_ok h
  have k4 : treeOk stA.tree = true := by
    by_cases hc :
        (!hasNode t3 (sid (pyLower (pyColonHead tok0) ++ "_in_" ++ parent)) &&
          pyLower (pyColonHead tok0) != "[*]") = true
    · rw [if_pos hc] at hD
      exact treeOk_createStateCore hrec k3 hD
    · rw [if_neg hc] at hD
      injection hD with hD
      subst hD
      exact k3
  obtain ⟨stB, hE, h⟩ := bindE_ok h
  have k5 : treeOk stB.tree = true := by
    by_cases hc : (pySplit (pyLower (pyColonHead tok2)) '[').length = 2
    · rw [if_pos hc] at hE
      obtain ⟨t4, hF, hE⟩ := bindE_ok hE
      have j1 := treeOk_createNode k4 (slotOk_rid _ _ _) hF
      obtain ⟨t5, hG, hE⟩ := bindE_ok hE
      have j2 := treeOk_createNode j1 (slotOk_rid _ _ _) hG
      obtain ⟨t6, hH, hE⟩ := mapE_ok hE
      have j3 : treeOk t6 = true := by
        by_cases hh :
            (!hasNode t5 (sid ("h_" ++
              (pySplit (pyLower (pyColonHead tok2)) '[').headD ""))) = true
        · rw [if_pos hh] at hH
          exact treeOk_createNode j2
            (slotOk_head _ _ _ 'h' (data_head_append "h_" _ 'h' rfl) (by decide)) hH
        · rw [if_neg hh] at hH
          injection hH with hH
          subst hH
          exact j2
      rw [← hE]
      exact j3
    · rw [if_neg hc] at hE
      obtain ⟨t4, hF, hE⟩ := bindE_ok hE
      have j1 := treeOk_createNode k4 (slotOk_rid _ _ _) hF
      obtain ⟨t5, hG, hE⟩ := bindE_ok hE
      have j2 := treeOk_createNode j1 (slotOk_rid _ _ _) hG
      by_cases hh :
          (!hasNode t5 (sid (pyLower (pyColonHead tok2) ++ "_in_" ++ parent)) &&
            pyLower (pyColonHead tok0) != "[*]") = true
      · rw [if_pos hh] at hE
        exact treeOk_createStateCore hrec j2 hE
      · rw [if_neg hh] at hE
        injection hE with hE
        subst hE
        exact j2
  cases hg : transGuard line i with
  | some gtext =>
    rw [hg] at h
    obtain ⟨t7, hF, h⟩ := bindE_ok h
    have j1 := treeOk_createNode k5 (slotOk_rid _ _ _) hF
    obtain ⟨t8, hG, h⟩ := mapE_ok h
    have j2 := treeOk_createNode j1 (slotOk_rid _ _ _) hG
    rw [← h]
    exact j2
  | none =>
    rw [hg] at h
    injection h with h
    subst h
    exact k5

/-- A monadic fold over `Except` preserves the C9 invariant when every
step does. -/
theorem treeOk_foldlM {f : PSt → Nat → Except String PSt}
    (hf : ∀ st ln st', treeOk st.tree = true → f st ln = Except.ok st' →
      treeOk st'.tree = true) :
    ∀ (ls : List Nat) (st st' : PSt), treeOk st.tree = true →
      ls.foldlM f st = Except.ok st' → treeOk st'.tree = true := by
  intro ls
  induction ls with
  | nil =>
    intro st st' h hfold
    have hsp : Except.ok st = Except.ok st' := hfold
    injection hsp with hsp
    subst hsp
    exact h
  | cons a as ih =>
    intro st st' h hfold
    rw [List.foldlM_cons] at hfold
    obtain ⟨st1, h1, h2⟩ := bindE_ok hfold
    exact ih st1 st' (hf st a st1 h h1) h2

/-- `find_state` preserves the C9 invariant, by induction on the nesting
fuel: each per-line rule is one of the four creation helpers, and the
nested exploration recurses at smaller fuel. -/
theorem treeOk_findStateF : ∀ (fuel : Nat) (st : PSt) (data : List (List String))
    (i : Nat) (parent : String) (st' : PSt), treeOk st.tree = true →
    findStateF fuel st data i parent = Except.ok st' → treeOk st'.tree = true := by
  intro fuel
  induction fuel with
  | zero =>
    intro st data i parent st' h hf
    exact absurd hf (by simp [findStateF])
  | succ n ih =>
    intro st data i parent st' h hf
    unfold findStateF at hf
    refine treeOk_foldlM ?_ (List.range data.length) st st' h hf
    intro s ln s' hs hstep
    by_cases hlen : (data.getD ln []).length ≥ i + 2
    · rw [if_pos hlen] at hstep
      obtain ⟨s1, hs1, hstep⟩ := bindE_ok hstep
      obtain ⟨s2, hs2, hstep⟩ := bindE_ok hstep
      obtain ⟨s3, hs3, hstep⟩ := bindE_ok hstep
      have hrec : ∀ st data i parent st', treeOk st.tree = true →
          findStateF n st data i parent = Except.ok st' → treeOk st'.tree = true :=
        fun a b c d e hx hy => ih a b c d e hx hy
      have hk1 : treeOk s1.tree = true := by
        by_cases hc : ((data.getD ln []).getD i "" == "state") = true
        · rw [if_pos hc] at hs1
          exact treeOk_createStateCore hrec hs hs1
        · rw [if_neg hc] at hs1
          injection hs1 with hs1
          subst hs1
          exact hs
      have hk2 : treeOk s2.tree = true := by
        by_cases hc : (((data.getD ln []).getD (i + 1) "" == "-->") ||
            ((data.getD ln []).getD (i + 1) "" == "->")) = true
        · rw [if_pos hc] at hs2
          exact treeOk_createTransition hrec hk1 hs2
        · rw [if_neg hc] at hs2
          injection hs2 with hs2
          subst hs2
          exact hk1
      have hk3 : treeOk s3.tree = true := by
        by_cases hc : ((data.getD ln []).getD (i + 1) "" == "Entry:") = true
        · rw [if_pos hc] at hs3
          exact treeOk_createEntry hk2 hs3
        · rw [if_neg hc] at hs3
          injection hs3 with hs3
          subst hs3
          exact hk2
      by_cases hc : ((data.getD ln []).getD (i + 1) "" == "Exit:") = true
      · rw [if_pos hc] at hstep
        exact treeOk_createExit hk3 hstep
      · rw [if_neg hc] at hstep
        injection hstep with hstep
        subst hstep
        exact hk3
    · rw [if_neg hlen] at hstep
      injection hstep with hstep
      subst hstep
      exact hs

/-- C9 amended: the initial pseudostate `[*]` is never registered as an
ordinary state node in any scope: in the tree of every successful parse,
no node has id `[*]_in_p` under a scope node `states_in_p` (the generator
additionally skips `[*]`-tagged children when emitting constructor and
machine fields).  The `[H]` half of the original claim fails: a literal
history token in source position IS registered and emitted as a class
(see the counterexample). -/
theorem C9_no_initial_pseudostate_node (root : String)
    (data : List (List String)) (st : PSt)
    (h : runParse root data = Except.ok st) :
    st.tree.all stateSlotOkB = true := by
  unfold runParse at h
  obtain ⟨t1, h1, h⟩ := bindE_ok h
  obtain ⟨t2, h2, h⟩ := bindE_ok h
  obtain ⟨t3, h3, h⟩ := bindE_ok h
  have k0 : treeOk [] = true := rfl
  have k1 := treeOk_createNode k0 (slotOk_parent_none _ _) h1
  have k2 := treeOk_createNode k1
    (slotOk_head _ _ _ 't' (data_head_append "transitions_in_" _ 't' rfl)
      (by decide)) h2
  have k3 := treeOk_createNode k2
    (slotOk_head _ _ _ 's' (data_head_append "states_in_" _ 's' rfl)
      (by decide)) h3
  exact treeOk_findStateF _ _ _ _ _ _ k3 h

/-- C9 amended witness: the invariant evaluated on the concrete
single-state parse. -/
theorem C9_no_initial_pseudostate_node_witness :
    (({ tree :=
        [ { id := Sum.inl "m", tag := "m", parent := none }
        , { id := Sum.inl "transitions_in_m", tag := "transitions_in_m"
          , parent := some (Sum.inl "m") }
        , { id := Sum.inl "states_in_m", tag := "states_in_m"
          , parent := some (Sum.inl "m") }
        , { id := Sum.inl "a_in_m", tag := "a_in_m"
          , parent := some (Sum.inl "states_in_m") }
        , { id := Sum.inl "transitions_in_a", tag := "transitions_in_a"
          , parent := some (Sum.inl "a_in_m") }
        , { id := Sum.inl "states_in_a", tag := "states_in_a"
          , parent := some (Sum.inl "a_in_m") } ]
      , ctr := 0 } : PSt)).tree.all stateSlotOkB = true :=
  C9_no_initial_pseudostate_node "m" [["state", "a"]]
    { tree :=
        [ { id := Sum.inl "m", tag := "m", parent := none }
        , { id := Sum.inl "transitions_in_m", tag := "transitions_in_m"
          , parent := some (Sum.inl "m") }
        , { id := Sum.inl "states_in_m", tag := "states_in_m"
          , parent := some (Sum.inl "m") }
        , { id := Sum.inl "a_in_m", tag := "a_in_m"
          , parent := some (Sum.inl "states_in_m") }
        , { id := Sum.inl "transitions_in_a", tag := "transitions_in_a"
          , parent := some (Sum.inl "a_in_m") }
        , { id := Sum.inl "states_in_a", tag := "states_in_a"
          , parent := some (Sum.inl "a_in_m") } ]
    , ctr := 0 } (by rfl)

/-- C9 counterexample: the literal history pseudostate in source position
(`[H] --> x`) IS turned into an ordinary StateNode — a child of the
scope's state list — and the generator emits a concrete class for it,
refuting the claim's `[H]` half. -/
theorem C9_history_literal_counterexample :
    (okTree (runParse "m" [["[H]", "-->", "x"]])).any
        (fun n => n.id == sid "[h]_in_m" && n.parent == some (sid "states_in_m")) =
      true ∧
      (okLines (runPipeline "m" [["[H]", "-->", "x"]])).contains
        "class [h]_in_m(SimpleState):" = true := by
  decide

end PumlHSM




